import Mathlib

/-!
Verification development for the CandidateScreening repository
(`src/llm/api_server.py`, `src/llm/llm_interaction.py`, `src/llm/data_models.py`).

The Python code is shallowly embedded: every definition below is translated
from the source file named in its doc comment.  External collaborators
(the langchain chain invocation, `json.loads`, the pydantic-based
`json_list_parser.parse`) are abstracted as explicit function parameters,
exactly at the interface the repository code consumes them.
-/

/-- `TaskStatus` from `data_models.py` (`class TaskStatus(str, Enum)`). -/
inductive TaskStatus where
  | PENDING
  | PROCESSING
  | COMPLETED
  | FAILED
deriving DecidableEq, Repr

/-- `Candidate` from `data_models.py`: required `id`/`name` and seven
optional free-text attributes. -/
structure Candidate where
  id : String
  name : String
  jobTitle : Option String := none
  headline : Option String := none
  summary : Option String := none
  keywords : Option String := none
  educations : Option String := none
  experiences : Option String := none
  skills : Option String := none
deriving DecidableEq, Repr

/-- `ScoredCandidate` from `data_models.py`. -/
structure ScoredCandidate where
  id : String
  name : String
  score : Int
  highlights : List String
deriving DecidableEq, Repr

/-- `ScoringOutput` from `data_models.py`. -/
structure ScoringOutput where
  scored_candidates : List ScoredCandidate
  errors : List String
deriving DecidableEq, Repr

/-- `TaskInfo` from `data_models.py`: the persisted task record.  Timestamps
are modelled as integers (seconds); only their order and differences are used
by the code. -/
structure TaskInfo where
  task_id : String
  status : TaskStatus
  job_description : Option String := none
  created_at : Option Int := none
  message : Option String := none
  result : Option ScoringOutput := none
  error_detail : Option String := none
deriving DecidableEq, Repr

/-- The in-memory task table `task_store` of `api_server.py`, a Python dict
modelled as an insertion-ordered association list with unique keys. -/
abbrev Store : Type := List (String × TaskInfo)

/-- Python dict read `task_store.get(task_id)`: the first binding wins. -/
def lookupTask : Store → String → Option TaskInfo
  | [], _ => none
  | (k, v) :: rest, i => if k = i then some v else lookupTask rest i

/-- Python dict write `task_store[task_id] = info`: replace the binding in
place if the key exists, otherwise append. -/
def setTask : Store → String → TaskInfo → Store
  | [], i, v => [(i, v)]
  | (k, w) :: rest, i, v => if k = i then (k, v) :: rest else (k, w) :: setTask rest i v

/-- Python dict removal `task_store.pop(task_id, None)` / `del`. -/
def removeTask : Store → String → Store
  | [], _ => []
  | (k, w) :: rest, i => if k = i then rest else (k, w) :: removeTask rest i

/-- The record produced by the mutation block of `update_task_status`
(`api_server.py` lines 61-66) applied to an existing record `t`. -/
def applyUpdate (t : TaskInfo) (status : TaskStatus) (message : Option String)
    (result : Option ScoringOutput) (error_detail : Option String) : TaskInfo :=
  { t with
    status := status
    message := message
    result := match result with | some r => some r | none => t.result
    error_detail := match error_detail with | some e => some e | none => t.error_detail }

/-- `update_task_status` from `api_server.py` (lines 59-70): mutate the
record only if the id exists; `message` is overwritten unconditionally,
`result` and `error_detail` only when the argument is not `None`.
(The `save_tasks_to_file` call and log lines mutate no task state.) -/
def update_task_status (store : Store) (task_id : String) (status : TaskStatus)
    (message : Option String) (result : Option ScoringOutput)
    (error_detail : Option String) : Store :=
  match lookupTask store task_id with
  | none => store
  | some t => setTask store task_id (applyUpdate t status message result error_detail)

/-- `timedelta(minutes=10)` from `api_server.py` line 139, in seconds. -/
def cacheWindow : Int := 600

/-- The cache scan loop of `initiate_score_endpoint` (`api_server.py` lines
141-153): walk the store in insertion order; on the first task with the same
`job_description`, status COMPLETED and a fresh `created_at`, stop with a hit;
stale completed matches encountered before that point are collected for
deletion. -/
def scanCache (jd : String) (now : Int) : Store → Option (String × TaskInfo) × List String
  | [] => (none, [])
  | (tid, t) :: rest =>
      if t.job_description = some jd ∧ t.status = TaskStatus.COMPLETED then
        match t.created_at with
        | some c =>
            if now - cacheWindow ≤ c then
              (some (tid, t), [])
            else
              let r := scanCache jd now rest
              (r.1, tid :: r.2)
        | none => scanCache jd now rest
      else scanCache jd now rest

/-- The PENDING record created on a cache miss (`api_server.py` lines 176-182). -/
def pendingTask (newId jd : String) (now : Int) : TaskInfo :=
  { task_id := newId
    status := TaskStatus.PENDING
    job_description := some jd
    created_at := some now
    message := some "Task received and pending execution." }

/-- The COMPLETED record created on a cache hit (`api_server.py` lines 162-169). -/
def cachedHitTask (newId jd : String) (now : Int) (srcTaskId : String)
    (r : ScoringOutput) : TaskInfo :=
  { task_id := newId
    status := TaskStatus.COMPLETED
    job_description := some jd
    created_at := some now
    message := some ("Result retrieved from cache (original task: " ++ srcTaskId ++ ").")
    result := some r }

/-- `initiate_score_endpoint` from `api_server.py` (lines 124-190), as a store
transformer.  Returns the new store and whether a background scoring task was
scheduled (`background_tasks.add_task`).  A hit whose record carries no result
falls through to the miss path, exactly as the `if cached_task_info and
cached_task_info.result` truthiness test does. -/
def initiate_score_endpoint (store : Store) (jd : String) (now : Int)
    (newId : String) : Store × Bool :=
  let scan := scanCache jd now store
  let store1 := scan.2.foldl removeTask store
  match scan.1 with
  | some (_, src) =>
      match src.result with
      | some r => (setTask store1 newId (cachedHitTask newId jd now src.task_id r), false)
      | none => (setTask store1 newId (pendingTask newId jd now), true)
  | none => (setTask store1 newId (pendingTask newId jd now), true)

/-- Control state of the background task `run_scoring_task` for one task id:
not scheduled, scheduled by submission, running (after the initial PROCESSING
update), or finished. -/
inductive BgPhase where
  | notScheduled
  | scheduled
  | started
  | done
deriving DecidableEq, Repr

/-- System state: the task table plus, per task id, the phase of its
background scoring run. -/
structure Sys where
  store : Store
  bg : String → BgPhase

/-- A fresh deployment: empty table, nothing scheduled. -/
def sysInit : Sys := ⟨[], fun _ => BgPhase.notScheduled⟩

/-- One observable operation of the system, as implemented in
`api_server.py`: a `POST /score` submission (`initiate_score_endpoint`), the
steps of `run_scoring_task` (the initial PROCESSING update at line 79, a
progress-callback update at line 77, the COMPLETED update at lines 90-95, the
FAILED update at line 100), and `DELETE /score/task/{task_id}`.  Task ids are
fresh UUIDs, captured by the freshness side conditions on `submit`. -/
inductive Step : Sys → Sys → Prop where
  | submit (s : Sys) (jd : String) (now : Int) (newId : String)
      (hfresh : lookupTask s.store newId = none)
      (hbg : s.bg newId = BgPhase.notScheduled) :
      Step s ⟨(initiate_score_endpoint s.store jd now newId).1,
              if (initiate_score_endpoint s.store jd now newId).2 then
                Function.update s.bg newId BgPhase.scheduled
              else s.bg⟩
  | bgStart (s : Sys) (tid : String) (h : s.bg tid = BgPhase.scheduled) :
      Step s ⟨update_task_status s.store tid TaskStatus.PROCESSING
                (some "Scoring process initiated.") none none,
              Function.update s.bg tid BgPhase.started⟩
  | bgProgress (s : Sys) (tid : String) (msg : String)
      (h : s.bg tid = BgPhase.started) :
      Step s ⟨update_task_status s.store tid TaskStatus.PROCESSING (some msg) none none,
              s.bg⟩
  | bgComplete (s : Sys) (tid : String) (res : ScoringOutput) (msg : String)
      (h : s.bg tid = BgPhase.started) :
      Step s ⟨update_task_status s.store tid TaskStatus.COMPLETED (some msg) (some res) none,
              Function.update s.bg tid BgPhase.done⟩
  | bgFail (s : Sys) (tid : String) (err : String)
      (h : s.bg tid = BgPhase.started) :
      Step s ⟨update_task_status s.store tid TaskStatus.FAILED
                (some "Scoring failed due to an internal error.") none (some err),
              Function.update s.bg tid BgPhase.done⟩
  | deleteTask (s : Sys) (tid : String) :
      Step s ⟨removeTask s.store tid, s.bg⟩

/-- States reachable from a fresh deployment through the system's operations. -/
inductive Reachable : Sys → Prop where
  | init : Reachable sysInit
  | step {s s' : Sys} : Reachable s → Step s s' → Reachable s'

/-- The record-level part of the task invariant: `result` only with status
COMPLETED, `error_detail` only with status FAILED. -/
def statusOk (t : TaskInfo) : Prop :=
  (t.result ≠ none → t.status = TaskStatus.COMPLETED) ∧
  (t.error_detail ≠ none → t.status = TaskStatus.FAILED)

/-- Inductive system invariant: dict keys are unique, every stored record
satisfies `statusOk`, and the background phase of an id constrains the status
of the record at that id (PENDING while merely scheduled, PROCESSING while
running). -/
def SysInv (s : Sys) : Prop :=
  (s.store.map Prod.fst).Nodup ∧
  (∀ p ∈ s.store, statusOk p.2) ∧
  (∀ i t, s.bg i = BgPhase.scheduled → lookupTask s.store i = some t →
      t.status = TaskStatus.PENDING) ∧
  (∀ i t, s.bg i = BgPhase.started → lookupTask s.store i = some t →
      t.status = TaskStatus.PROCESSING)

/-- Python exception values as they occur in `llm_interaction.py`:
`OutputParserException` (langchain parse failure), `json.JSONDecodeError`,
`ValueError`, tenacity's `RetryError` wrapping the last attempt's exception,
and arbitrary other exceptions identified by their class name. -/
inductive PyExc where
  | outputParserException (m : String)
  | jsonDecodeError (m : String)
  | valueError (m : String)
  | retryError (lastExc : PyExc)
  | other (className m : String)
deriving DecidableEq, Repr

/-- `type(e).__name__` for a modelled exception. -/
def PyExc.pyTypeName : PyExc → String
  | .outputParserException _ => "OutputParserException"
  | .jsonDecodeError _ => "JSONDecodeError"
  | .valueError _ => "ValueError"
  | .retryError _ => "RetryError"
  | .other n _ => n

/-- `str(e)` for a modelled exception.  tenacity renders `RetryError`
opaquely; only its class name matters to the code under verification. -/
def PyExc.pyStr : PyExc → String
  | .outputParserException m => m
  | .jsonDecodeError m => m
  | .valueError m => m
  | .retryError _ => "RetryError"
  | .other _ m => m

/-- JSON values, the results of `json.loads` and of langchain's
`JsonOutputParser`. -/
inductive JsonVal where
  | null
  | jbool (b : Bool)
  | jnum (n : Int)
  | jstr (s : String)
  | jarr (elems : List JsonVal)
  | jobj (fields : List (String × JsonVal))

/-- `MAX_RETRIES = 3` from `llm_interaction.py` line 24. -/
def MAX_RETRIES : Nat := 3

/-- The `retry=retry_if_exception_type((Exception))` predicate of
`retry_decorator` (`llm_interaction.py` line 106): every Python exception is
an instance of `Exception`, so the predicate holds for all of them. -/
def retry_condition (_ : PyExc) : Bool := true

/-- tenacity's retry loop: run attempts of `call` (the k-th call is
`call idx`), re-attempting while the raised exception satisfies
`retry_condition` and fewer than the configured number of attempts have run;
when attempts are exhausted on a retryable exception, raise `RetryError`
wrapping it (tenacity's default `reraise=False`); a non-retryable exception
propagates unchanged.  Returns the outcome and the number of calls made. -/
def tenacityGo (call : Nat → Except PyExc JsonVal) :
    Nat → Nat → Except PyExc JsonVal × Nat
  | _, 0 => (Except.error (PyExc.other "RuntimeError" "no attempts configured"), 0)
  | idx, n + 1 =>
      match call idx with
      | Except.ok v => (Except.ok v, 1)
      | Except.error e =>
          if retry_condition e then
            match n with
            | 0 => (Except.error (PyExc.retryError e), 1)
            | m + 1 =>
                let r := tenacityGo call (idx + 1) (m + 1)
                (r.1, r.2 + 1)
          else (Except.error e, 1)

/-- `invoke_llm_with_retry` (`llm_interaction.py` lines 103-129): the chain
invocation wrapped in `retry_decorator` with `stop_after_attempt(MAX_RETRIES)`.
The function body itself only re-raises whatever `chain.invoke` raises, so the
observable behaviour is the tenacity loop over the underlying calls. -/
def invoke_llm_with_retry (call : Nat → Except PyExc JsonVal) :
    Except PyExc JsonVal × Nat :=
  tenacityGo call 0 MAX_RETRIES

/-- The interface `score_candidates_batch` consumes, abstracted at the
external boundaries the code uses: `strictCall k` and `lenientCall k` are the
outcomes of the (k+1)-th underlying `chain.invoke` of the strict and of the
lenient chain — the raw transport-plus-parser call that the tenacity loop
re-attempts — `json_loads` is `json.loads` on a raw string (error =
`json.JSONDecodeError`) and `parse_validate` is `json_list_parser.parse`
applied to an already-parsed value (error = `OutputParserException`). -/
structure BatchEnv where
  strictCall : Nat → Except PyExc JsonVal
  lenientCall : Nat → Except PyExc JsonVal
  json_loads : String → Except String JsonVal
  parse_validate : JsonVal → Except String JsonVal

/-- The outcome of `result = await invoke_llm_with_retry(chain, prompt_values)`
(`llm_interaction.py` line 168): the call itself is synchronous, so the
tenacity loop runs and, if it raises, that exception propagates; but
`invoke_llm_with_retry` is a plain `def` (line 110), so on a successful return
the `await` is applied to a non-awaitable value (a parsed list or a string,
neither implements the awaitable protocol) and raises `TypeError` before the
value can be bound.  Returns the outcome and the number of underlying chain
calls made. -/
def awaited_invoke (call : Nat → Except PyExc JsonVal) :
    Except PyExc JsonVal × Nat :=
  let r := invoke_llm_with_retry call
  match r.1 with
  | Except.error e => (Except.error e, r.2)
  | Except.ok _ =>
      (Except.error (PyExc.other "TypeError"
        "object can not be used in await expression"), r.2)

/-- The body of the `try` block of `score_candidates_batch`
(`llm_interaction.py` lines 165-184) for one attempt over one chain: await the
retried invocation; if a value were bound and were a `str` (the lenient
chain's `string_parser`), run `json.loads` and then `json_list_parser.parse`,
wrapping either failure in `OutputParserException("Failed to parse LLM output
even on retry: ...")` (line 180); a non-str value is returned as-is (line
184).  The str branch is kept exactly as the source writes it, although
`awaited_invoke` makes it unreachable: the `await` at line 168 turns every
successful invocation into a `TypeError` first (see
`attemptResult_never_ok`). -/
def attemptResult (env : BatchEnv) (call : Nat → Except PyExc JsonVal) :
    Except PyExc JsonVal × Nat :=
  let r := awaited_invoke call
  match r.1 with
  | Except.error e => (Except.error e, r.2)
  | Except.ok (JsonVal.jstr s) =>
      match env.json_loads s with
      | Except.error _ =>
          (Except.error (PyExc.outputParserException
            ("Failed to parse LLM output even on retry: " ++ s)), r.2)
      | Except.ok parsed =>
          match env.parse_validate parsed with
          | Except.error _ =>
              (Except.error (PyExc.outputParserException
                ("Failed to parse LLM output even on retry: " ++ s)), r.2)
          | Except.ok validated => (Except.ok validated, r.2)
  | Except.ok v => (Except.ok v, r.2)

/-- The keys of the `llms` dict (`llm_interaction.py` lines 30-33). -/
def llms_providers : List String := ["openai", "gemini"]

/-- Outcome of one `score_candidates_batch` call: the result, the number of
calls made to `invoke_llm_with_retry` (the invoker), and the number of
underlying `chain.invoke` calls those made in total. -/
structure BatchOutcome where
  result : Except PyExc JsonVal
  invokerCalls : Nat
  chainCalls : Nat

/-- `score_candidates_batch` (`llm_interaction.py` lines 131-210) composed
with the real `retry_decorator` and the `await` at line 168: an unknown
provider raises `ValueError` before any invocation; an
`OutputParserException` escaping attempt 1 triggers exactly one further
attempt with the lenient chain (lines 186-191), whose outcome — success or
any exception — is final (lines 192-194); any other exception at attempt 1 —
in particular the `RetryError` the decorator wraps exhausted failures in, and
the `TypeError` from the `await` — propagates with no second attempt
(lines 195-210). -/
def score_candidates_batch (env : BatchEnv) (model_provider : String) :
    BatchOutcome :=
  if model_provider ∈ llms_providers then
    let a1 := attemptResult env env.strictCall
    match a1.1 with
    | Except.ok v => { result := Except.ok v, invokerCalls := 1, chainCalls := a1.2 }
    | Except.error e =>
        match e with
        | PyExc.outputParserException _ =>
            let a2 := attemptResult env env.lenientCall
            { result := a2.1, invokerCalls := 2, chainCalls := a1.2 + a2.2 }
        | _ => { result := Except.error e, invokerCalls := 1, chainCalls := a1.2 }
  else
    { result := Except.error (PyExc.valueError
        ("Unsupported model provider: " ++ model_provider))
      invokerCalls := 0
      chainCalls := 0 }

/-- `BATCH_SIZE = 10` from `llm_interaction.py` line 27. -/
def BATCH_SIZE : Nat := 10

/-- The slicing loop `for i in range(0, len(candidates), BATCH_SIZE):
batch = candidates[i:i + BATCH_SIZE]` (`llm_interaction.py` lines 222-223). -/
def batches : List α → List (List α)
  | [] => []
  | x :: xs => ((x :: xs).take BATCH_SIZE) :: batches ((x :: xs).drop BATCH_SIZE)
termination_by l => l.length
decreasing_by simp [BATCH_SIZE]; omega

/-- Python `repr` of a string (single-quoted), as used by f-string formatting
of a list of ids. -/
def pyStrRepr (s : String) : String := "\x27" ++ s ++ "\x27"

/-- Python `repr` of a list of strings: comma-separated reprs in brackets. -/
def pyListReprAux : List String → String
  | [] => ""
  | [x] => pyStrRepr x
  | x :: y :: rest => pyStrRepr x ++ ", " ++ pyListReprAux (y :: rest)

/-- Python `repr` of a list of strings, e.g. `['c1', 'c2']`. -/
def pyListRepr (xs : List String) : String := "[" ++ pyListReprAux xs ++ "]"

/-- The per-batch error string built at `llm_interaction.py` line 234:
`f"Failed to score batch (IDs: {batch_ids}): {type(e).__name__}: {e}"`. -/
def batchErrorString (batch : List Candidate) (e : PyExc) : String :=
  "Failed to score batch (IDs: " ++ pyListRepr (batch.map Candidate.id) ++ "): "
    ++ e.pyTypeName ++ ": " ++ e.pyStr

/-- The aggregation loop of `score_candidates` (`llm_interaction.py` lines
222-241) over an already-sliced list of batches: a successful batch extends
the scored list, a failing batch appends one formatted error string and the
loop continues with the next batch.  `oracle` is the outcome of
`score_candidates_batch` for each batch (the job description and provider are
fixed throughout the loop and folded into it). -/
def scoreBatches (oracle : List Candidate → Except PyExc (List α)) :
    List (List Candidate) → List α × List String
  | [] => ([], [])
  | b :: bs =>
      let rest := scoreBatches oracle bs
      match oracle b with
      | Except.ok scored => (scored ++ rest.1, rest.2)
      | Except.error e => (rest.1, batchErrorString b e :: rest.2)

/-- `score_candidates` (`llm_interaction.py` lines 213-242): slice the
candidate list into consecutive batches of `BATCH_SIZE` and run the
aggregation loop. -/
def score_candidates (oracle : List Candidate → Except PyExc (List α))
    (candidates : List Candidate) : List α × List String :=
  scoreBatches oracle (batches candidates)

/-- The parameter names accepted by `score_candidates`
(`llm_interaction.py` lines 213-217): `job_description`, `candidates`,
`model_provider` — and nothing else. -/
def score_candidates_param_names : List String :=
  ["job_description", "candidates", "model_provider"]

/-- The keyword arguments `run_scoring_task` passes to `score_candidates`
(`api_server.py` lines 82-87). -/
def run_scoring_task_call_kwargs : List String :=
  ["job_description", "candidates", "model_provider", "progress_callback"]

/-- Python call binding: a call with keyword arguments `kwargs` binds against
a parameter list `params` only if every keyword names a parameter; an
unexpected keyword raises `TypeError` before the function body runs. -/
def kwargsBind (params kwargs : List String) : Bool :=
  kwargs.all (fun k => params.contains k)

/-- A concrete scoring result used by the executable witnesses below. -/
def demoResult : ScoringOutput :=
  { scored_candidates := [{ id := "c1", name := "A", score := 90, highlights := ["h1"] }]
    errors := [] }

/-- A store holding one COMPLETED task, used to exhibit that
`update_task_status` performs no transition check. -/
def c4store : Store :=
  [("tA", { task_id := "tA", status := TaskStatus.COMPLETED,
            job_description := some "jd", created_at := some 0,
            message := some "done", result := some demoResult })]

/-- State after submitting job description `jd` to a fresh deployment. -/
def demoSys1 : Sys :=
  ⟨(initiate_score_endpoint sysInit.store "jd" 0 "t1").1,
   if (initiate_score_endpoint sysInit.store "jd" 0 "t1").2 then
     Function.update sysInit.bg "t1" BgPhase.scheduled
   else sysInit.bg⟩

/-- State after the background task transitioned task `t1` to PROCESSING. -/
def demoSys2 : Sys :=
  ⟨update_task_status demoSys1.store "t1" TaskStatus.PROCESSING
     (some "Scoring process initiated.") none none,
   Function.update demoSys1.bg "t1" BgPhase.started⟩

/-- State after the background task completed task `t1`. -/
def demoSys3 : Sys :=
  ⟨update_task_status demoSys2.store "t1" TaskStatus.COMPLETED
     (some "Scoring complete.") (some demoResult) none,
   Function.update demoSys2.bg "t1" BgPhase.done⟩

/-- A completed source task for the cache-hit witness. -/
def demoSrcTask : TaskInfo :=
  { task_id := "src1", status := TaskStatus.COMPLETED,
    job_description := some "Backend Engineer", created_at := some 100,
    message := some "Scoring complete.", result := some demoResult }

/-- Store for the cache-hit witness. -/
def demoStore5 : Store := [("src1", demoSrcTask)]

/-- The C1 scenario as a concrete input: every strict-chain call's output
fails to parse (the chain raises `OutputParserException`), while the lenient
chain returns the raw text `[]`, which decodes to the empty JSON array and
passes validation unchanged — the lenient attempt-2 output is valid JSON. -/
def envStrictParseFails : BatchEnv :=
  { strictCall := fun _ =>
      Except.error (PyExc.outputParserException "Invalid json output")
    lenientCall := fun _ => Except.ok (JsonVal.jstr "[]")
    json_loads := fun s =>
      if s = "[]" then Except.ok (JsonVal.jarr []) else Except.error "decode error"
    parse_validate := fun v => Except.ok v }

/-- A strict chain whose very first call succeeds with a parsed array: even
then the `await` on the synchronous invoker return raises `TypeError`. -/
def envStrictOk : BatchEnv :=
  { strictCall := fun _ => Except.ok (JsonVal.jarr [])
    lenientCall := fun _ => Except.ok (JsonVal.jstr "[]")
    json_loads := fun s =>
      if s = "[]" then Except.ok (JsonVal.jarr []) else Except.error "decode error"
    parse_validate := fun v => Except.ok v }

/-- Minimal candidate constructor for the batching witnesses. -/
def mkCand (i : String) : Candidate := { id := i, name := i }

/-- Twelve candidates: two batches of sizes 10 and 2. -/
def demoCands : List Candidate :=
  [mkCand "c1", mkCand "c2", mkCand "c3", mkCand "c4", mkCand "c5", mkCand "c6",
   mkCand "c7", mkCand "c8", mkCand "c9", mkCand "c10", mkCand "c11", mkCand "c12"]

/-- Scoring function for the all-batches-succeed witness. -/
def demoScoreFn (c : Candidate) : ScoredCandidate :=
  { id := c.id, name := c.name, score := 50, highlights := [] }

/-- Oracle under which every batch succeeds, scoring candidates in order. -/
def demoOkOracle (b : List Candidate) : Except PyExc (List ScoredCandidate) :=
  Except.ok (b.map demoScoreFn)

/-- The exception raised by the failing batch in the isolation witness. -/
def demoExc : PyExc := PyExc.other "Exception" "Batch 1 failed processing"

/-- Oracle under which the first (full) batch fails and any other succeeds. -/
def demoFailOracle (b : List Candidate) : Except PyExc (List ScoredCandidate) :=
  if b.length = BATCH_SIZE then Except.error demoExc
  else Except.ok (b.map demoScoreFn)

/-- The error-list contribution of one batch in the aggregation loop:
`none` when the batch succeeded, the formatted error string when it failed. -/
def batchErrOf (oracle : List Candidate → Except PyExc (List α))
    (bb : List Candidate) : Option String :=
  match oracle bb with
  | Except.ok _ => none
  | Except.error ee => some (batchErrorString bb ee)

/-- The scored-list contribution of one batch in the aggregation loop:
its scored output when it succeeded, nothing when it failed. -/
def batchOkOf (oracle : List Candidate → Except PyExc (List α))
    (bb : List Candidate) : List α :=
  match oracle bb with
  | Except.ok r => r
  | Except.error _ => []

/-! ### Association-list store lemmas -/

theorem lookupTask_setTask_self (s : Store) (k : String) (v : TaskInfo) :
    lookupTask (setTask s k v) k = some v := by
  induction s with
  | nil => simp [setTask, lookupTask]
  | cons p rest ih =>
      obtain ⟨a, b⟩ := p
      by_cases h : a = k
      · simp [setTask, lookupTask, h]
      · simp [setTask, lookupTask, h, ih]

theorem lookupTask_setTask_ne (s : Store) (k i : String) (v : TaskInfo)
    (h : i ≠ k) : lookupTask (setTask s k v) i = lookupTask s i := by
  induction s with
  | nil => simp [setTask, lookupTask, Ne.symm h]
  | cons p rest ih =>
      obtain ⟨a, b⟩ := p
      by_cases hak : a = k
      · subst hak
        simp [setTask, lookupTask, Ne.symm h]
      · simp only [setTask, if_neg hak, lookupTask]
        by_cases hai : a = i
        · simp [hai]
        · simp [hai, ih]

theorem lookupTask_removeTask_ne (s : Store) (k i : String) (h : i ≠ k) :
    lookupTask (removeTask s k) i = lookupTask s i := by
  induction s with
  | nil => simp [removeTask]
  | cons p rest ih =>
      obtain ⟨a, b⟩ := p
      by_cases hak : a = k
      · subst hak
        simp [removeTask, lookupTask, Ne.symm h]
      · simp only [removeTask, if_neg hak, lookupTask]
        by_cases hai : a = i
        · simp [hai]
        · simp [hai, ih]

theorem mem_setTask (s : Store) (k : String) (v : TaskInfo) (p : String × TaskInfo)
    (h : p ∈ setTask s k v) : p = (k, v) ∨ p ∈ s := by
  induction s with
  | nil =>
      simp only [setTask, List.mem_singleton] at h
      exact Or.inl h
  | cons q rest ih =>
      obtain ⟨a, b⟩ := q
      by_cases hak : a = k
      · subst hak
        simp [setTask, List.mem_cons] at h
        rcases h with h1 | h1
        · exact Or.inl h1
        · exact Or.inr (List.mem_cons_of_mem _ h1)
      · simp only [setTask, if_neg hak, List.mem_cons] at h
        rcases h with h1 | h1
        · exact Or.inr (by simp [h1])
        · rcases ih h1 with h2 | h2
          · exact Or.inl h2
          · exact Or.inr (List.mem_cons_of_mem _ h2)

theorem removeTask_sublist (s : Store) (k : String) :
    List.Sublist (removeTask s k) s := by
  induction s with
  | nil => simp [removeTask]
  | cons p rest ih =>
      obtain ⟨a, b⟩ := p
      by_cases hak : a = k
      · simp only [removeTask, if_pos hak]
        exact List.sublist_cons_self (a, b) rest
      · simpa [removeTask, hak] using ih.cons₂ (a, b)

theorem lookupTask_mem (s : Store) (i : String) (t : TaskInfo)
    (h : lookupTask s i = some t) : (i, t) ∈ s := by
  induction s with
  | nil => simp [lookupTask] at h
  | cons p rest ih =>
      obtain ⟨a, b⟩ := p
      by_cases hai : a = i
      · subst hai
        simp [lookupTask] at h
        simp [h]
      · simp only [lookupTask, if_neg hai] at h
        exact List.mem_cons_of_mem _ (ih h)

theorem lookupTask_eq_none_iff (s : Store) (i : String) :
    lookupTask s i = none ↔ i ∉ s.map Prod.fst := by
  induction s with
  | nil => simp [lookupTask]
  | cons p rest ih =>
      obtain ⟨a, b⟩ := p
      by_cases hai : a = i
      · subst hai
        simp [lookupTask]
      · simp [lookupTask, hai, ih, List.mem_cons, Ne.symm hai]

theorem map_fst_setTask_mem (s : Store) (k : String) (v : TaskInfo)
    (h : k ∈ s.map Prod.fst) : (setTask s k v).map Prod.fst = s.map Prod.fst := by
  induction s with
  | nil => simp at h
  | cons p rest ih =>
      obtain ⟨a, b⟩ := p
      by_cases hak : a = k
      · simp [setTask, hak]
      · simp only [List.map_cons, List.mem_cons] at h
        rcases h with h1 | h1
        · exact absurd h1.symm hak
        · simp [setTask, hak, ih h1]

theorem map_fst_setTask_not_mem (s : Store) (k : String) (v : TaskInfo)
    (h : k ∉ s.map Prod.fst) :
    (setTask s k v).map Prod.fst = s.map Prod.fst ++ [k] := by
  induction s with
  | nil => simp [setTask]
  | cons p rest ih =>
      obtain ⟨a, b⟩ := p
      simp only [List.map_cons, List.mem_cons] at h
      push_neg at h
      simp [setTask, Ne.symm h.1, ih h.2]

theorem nodup_keys_setTask (s : Store) (k : String) (v : TaskInfo)
    (h : (s.map Prod.fst).Nodup) : ((setTask s k v).map Prod.fst).Nodup := by
  by_cases hmem : k ∈ s.map Prod.fst
  · rw [map_fst_setTask_mem s k v hmem]; exact h
  · rw [map_fst_setTask_not_mem s k v hmem]
    simp [List.nodup_append, h, hmem]

theorem nodup_keys_sublist {s1 s2 : Store} (hsub : List.Sublist s1 s2)
    (h : (s2.map Prod.fst).Nodup) : (s1.map Prod.fst).Nodup :=
  List.Nodup.sublist (hsub.map Prod.fst) h

theorem lookupTask_removeTask_self (s : Store) (k : String)
    (h : (s.map Prod.fst).Nodup) : lookupTask (removeTask s k) k = none := by
  induction s with
  | nil => simp [removeTask, lookupTask]
  | cons p rest ih =>
      obtain ⟨a, b⟩ := p
      simp only [List.map_cons, List.nodup_cons] at h
      by_cases hak : a = k
      · subst hak
        simp only [removeTask, if_pos rfl]
        exact (lookupTask_eq_none_iff rest a).mpr h.1
      · simp only [removeTask, if_neg hak, lookupTask, if_neg hak]
        exact ih h.2

theorem foldl_removeTask_sublist (dels : List String) (s : Store) :
    List.Sublist (dels.foldl removeTask s) s := by
  induction dels generalizing s with
  | nil => simp
  | cons d dels ih =>
      simp only [List.foldl_cons]
      exact List.Sublist.trans (ih (removeTask s d)) (removeTask_sublist s d)

theorem lookupTask_foldl_removeTask (dels : List String) (s : Store) (i : String)
    (h : (s.map Prod.fst).Nodup) :
    lookupTask (dels.foldl removeTask s) i = none ∨
      lookupTask (dels.foldl removeTask s) i = lookupTask s i := by
  induction dels generalizing s with
  | nil => simp
  | cons d dels ih =>
      simp only [List.foldl_cons]
      have hnd : ((removeTask s d).map Prod.fst).Nodup :=
        nodup_keys_sublist (removeTask_sublist s d) h
      rcases ih (removeTask s d) hnd with h1 | h1
      · exact Or.inl h1
      · by_cases hid : i = d
        · subst hid
          rw [h1, lookupTask_removeTask_self s i h]
          exact Or.inl rfl
        · rw [h1, lookupTask_removeTask_ne s d i hid]
          exact Or.inr rfl

/-! ### `update_task_status` lemmas -/

theorem update_task_status_absent (store : Store) (tid : String) (st : TaskStatus)
    (msg : Option String) (res : Option ScoringOutput) (err : Option String)
    (h : lookupTask store tid = none) :
    update_task_status store tid st msg res err = store := by
  simp [update_task_status, h]

theorem update_task_status_present (store : Store) (tid : String) (st : TaskStatus)
    (msg : Option String) (res : Option ScoringOutput) (err : Option String)
    (t : TaskInfo) (h : lookupTask store tid = some t) :
    update_task_status store tid st msg res err =
      setTask store tid (applyUpdate t st msg res err) := by
  simp [update_task_status, h]

theorem lookupTask_update_self (store : Store) (tid : String) (st : TaskStatus)
    (msg : Option String) (res : Option ScoringOutput) (err : Option String)
    (t : TaskInfo) (h : lookupTask store tid = some t) :
    lookupTask (update_task_status store tid st msg res err) tid =
      some (applyUpdate t st msg res err) := by
  rw [update_task_status_present store tid st msg res err t h]
  exact lookupTask_setTask_self store tid _

theorem lookupTask_update_ne (store : Store) (tid : String) (st : TaskStatus)
    (msg : Option String) (res : Option ScoringOutput) (err : Option String)
    (i : String) (hne : i ≠ tid) :
    lookupTask (update_task_status store tid st msg res err) i = lookupTask store i := by
  cases h : lookupTask store tid with
  | none => rw [update_task_status_absent store tid st msg res err h]
  | some t =>
      rw [update_task_status_present store tid st msg res err t h]
      exact lookupTask_setTask_ne store tid i _ hne

theorem applyUpdate_status (t : TaskInfo) (st : TaskStatus) (msg : Option String)
    (res : Option ScoringOutput) (err : Option String) :
    (applyUpdate t st msg res err).status = st := rfl

theorem statusOk_result_none {t : TaskInfo} (h : statusOk t)
    (hst : t.status ≠ TaskStatus.COMPLETED) : t.result = none := by
  cases hr : t.result with
  | none => rfl
  | some r => exact absurd (h.1 (by simp [hr])) hst

theorem statusOk_error_none {t : TaskInfo} (h : statusOk t)
    (hst : t.status ≠ TaskStatus.FAILED) : t.error_detail = none := by
  cases hr : t.error_detail with
  | none => rfl
  | some r => exact absurd (h.2 (by simp [hr])) hst

/-! ### Shape of `initiate_score_endpoint` -/

theorem initiate_shape (store : Store) (jd : String) (now : Int) (newId : String) :
    (∃ src r, (scanCache jd now store).1 = some src ∧ src.2.result = some r ∧
        initiate_score_endpoint store jd now newId =
          (setTask ((scanCache jd now store).2.foldl removeTask store) newId
             (cachedHitTask newId jd now src.2.task_id r), false)) ∨
      initiate_score_endpoint store jd now newId =
        (setTask ((scanCache jd now store).2.foldl removeTask store) newId
           (pendingTask newId jd now), true) := by
  cases hscan : (scanCache jd now store).1 with
  | none => exact Or.inr (by simp [initiate_score_endpoint, hscan])
  | some src =>
      obtain ⟨sid, srct⟩ := src
      cases hres : srct.result with
      | none => exact Or.inr (by simp [initiate_score_endpoint, hscan, hres])
      | some r =>
          exact Or.inl ⟨(sid, srct), r, rfl, hres,
            by simp [initiate_score_endpoint, hscan, hres]⟩

/-! ### The system invariant is inductive -/

theorem sysInv_init : SysInv sysInit := by
  refine ⟨by simp [sysInit], ?_, ?_, ?_⟩
  · intro p hp; simp [sysInit] at hp
  · intro i t _ hl; simp [sysInit, lookupTask] at hl
  · intro i t _ hl; simp [sysInit, lookupTask] at hl

theorem sysInv_update_preserved (s : Sys) (tid : String) (st : TaskStatus)
    (msg : Option String) (res : Option ScoringOutput) (err : Option String)
    (bg' : String → BgPhase) (hinv : SysInv s)
    (hbgne : ∀ i, i ≠ tid → bg' i = s.bg i)
    (hokupd : ∀ t, lookupTask s.store tid = some t →
        statusOk (applyUpdate t st msg res err))
    (hsch' : bg' tid = BgPhase.scheduled → st = TaskStatus.PENDING)
    (hsta' : bg' tid = BgPhase.started → st = TaskStatus.PROCESSING) :
    SysInv ⟨update_task_status s.store tid st msg res err, bg'⟩ := by
  obtain ⟨hnd, hok, hsch, hsta⟩ := hinv
  cases hl : lookupTask s.store tid with
  | none =>
      rw [update_task_status_absent s.store tid st msg res err hl]
      refine ⟨hnd, hok, ?_, ?_⟩
      · intro i t hbi hli
        by_cases hit : i = tid
        · subst hit; rw [hl] at hli; cases hli
        · exact hsch i t (by rw [← hbgne i hit]; exact hbi) hli
      · intro i t hbi hli
        by_cases hit : i = tid
        · subst hit; rw [hl] at hli; cases hli
        · exact hsta i t (by rw [← hbgne i hit]; exact hbi) hli
  | some t =>
      rw [update_task_status_present s.store tid st msg res err t hl]
      refine ⟨nodup_keys_setTask s.store tid _ hnd, ?_, ?_, ?_⟩
      · intro p hp
        rcases mem_setTask s.store tid _ p hp with h1 | h1
        · rw [h1]; exact hokupd t hl
        · exact hok p h1
      · intro i u hbi hli
        by_cases hit : i = tid
        · subst hit
          rw [lookupTask_setTask_self s.store i _] at hli
          cases hli
          exact (applyUpdate_status t st msg res err).trans (hsch' hbi) ▸ rfl
        · rw [lookupTask_setTask_ne s.store tid i _ hit] at hli
          exact hsch i u (by rw [← hbgne i hit]; exact hbi) hli
      · intro i u hbi hli
        by_cases hit : i = tid
        · subst hit
          rw [lookupTask_setTask_self s.store i _] at hli
          cases hli
          exact (applyUpdate_status t st msg res err).trans (hsta' hbi) ▸ rfl
        · rw [lookupTask_setTask_ne s.store tid i _ hit] at hli
          exact hsta i u (by rw [← hbgne i hit]; exact hbi) hli

theorem sysInv_step {s s' : Sys} (hinv : SysInv s) (hstep : Step s s') : SysInv s' := by
  obtain ⟨hnd, hok, hsch, hsta⟩ := hinv
  cases hstep with
  | submit jd now newId hfresh hbg =>
      have hsub := foldl_removeTask_sublist (scanCache jd now s.store).2 s.store
      have hnd1 := nodup_keys_sublist hsub hnd
      have hlook1 : ∀ i t,
          lookupTask ((scanCache jd now s.store).2.foldl removeTask s.store) i = some t →
            lookupTask s.store i = some t := by
        intro i t hlt
        rcases lookupTask_foldl_removeTask (scanCache jd now s.store).2 s.store i hnd
          with h1 | h1
        · rw [h1] at hlt; cases hlt
        · rw [h1] at hlt; exact hlt
      rcases initiate_shape s.store jd now newId with ⟨src, r, _, _, heq⟩ | heq
      · rw [heq]
        simp only [Bool.false_eq_true, if_false]
        refine ⟨nodup_keys_setTask _ newId _ hnd1, ?_, ?_, ?_⟩
        · intro p hp
          rcases mem_setTask _ newId _ p hp with h1 | h1
          · rw [h1]; simp [cachedHitTask, statusOk]
          · exact hok p (hsub.subset h1)
        · intro i t hbi hli
          by_cases hin : i = newId
          · subst hin; rw [hbg] at hbi; cases hbi
          · rw [lookupTask_setTask_ne _ newId i _ hin] at hli
            exact hsch i t hbi (hlook1 i t hli)
        · intro i t hbi hli
          by_cases hin : i = newId
          · subst hin; rw [hbg] at hbi; cases hbi
          · rw [lookupTask_setTask_ne _ newId i _ hin] at hli
            exact hsta i t hbi (hlook1 i t hli)
      · rw [heq]
        simp only [if_true]
        refine ⟨nodup_keys_setTask _ newId _ hnd1, ?_, ?_, ?_⟩
        · intro p hp
          rcases mem_setTask _ newId _ p hp with h1 | h1
          · rw [h1]; simp [pendingTask, statusOk]
          · exact hok p (hsub.subset h1)
        · intro i t hbi hli
          by_cases hin : i = newId
          · subst hin
            rw [lookupTask_setTask_self] at hli
            cases hli
            rfl
          · have hbi2 : Function.update s.bg newId BgPhase.scheduled i =
                BgPhase.scheduled := hbi
            rw [Function.update_noteq hin _ _] at hbi2
            rw [lookupTask_setTask_ne _ newId i _ hin] at hli
            exact hsch i t hbi2 (hlook1 i t hli)
        · intro i t hbi hli
          by_cases hin : i = newId
          · subst hin
            have hbi2 : Function.update s.bg i BgPhase.scheduled i =
                BgPhase.started := hbi
            rw [Function.update_same] at hbi2
            cases hbi2
          · have hbi2 : Function.update s.bg newId BgPhase.scheduled i =
                BgPhase.started := hbi
            rw [Function.update_noteq hin _ _] at hbi2
            rw [lookupTask_setTask_ne _ newId i _ hin] at hli
            exact hsta i t hbi2 (hlook1 i t hli)
  | bgStart tid h =>
      refine sysInv_update_preserved s tid TaskStatus.PROCESSING
        (some "Scoring process initiated.") none none
        (Function.update s.bg tid BgPhase.started) ⟨hnd, hok, hsch, hsta⟩
        (fun i hi => Function.update_noteq hi _ _) ?_ ?_ ?_
      · intro t hl
        have hstat := hsch tid t h hl
        have htok : statusOk t := hok (tid, t) (lookupTask_mem _ _ _ hl)
        have hres := statusOk_result_none htok (by rw [hstat]; simp)
        have herr := statusOk_error_none htok (by rw [hstat]; simp)
        simp [applyUpdate, statusOk, hres, herr]
      · intro hx; rw [Function.update_same tid _ _] at hx; cases hx
      · intro _; rfl
  | bgProgress tid msg h =>
      refine sysInv_update_preserved s tid TaskStatus.PROCESSING (some msg) none none
        s.bg ⟨hnd, hok, hsch, hsta⟩ (fun _ _ => rfl) ?_ ?_ ?_
      · intro t hl
        have hstat := hsta tid t h hl
        have htok : statusOk t := hok (tid, t) (lookupTask_mem _ _ _ hl)
        have hres := statusOk_result_none htok (by rw [hstat]; simp)
        have herr := statusOk_error_none htok (by rw [hstat]; simp)
        simp [applyUpdate, statusOk, hres, herr]
      · intro hx; rw [h] at hx; cases hx
      · intro _; rfl
  | bgComplete tid res msg h =>
      refine sysInv_update_preserved s tid TaskStatus.COMPLETED (some msg) (some res) none
        (Function.update s.bg tid BgPhase.done) ⟨hnd, hok, hsch, hsta⟩
        (fun i hi => Function.update_noteq hi _ _) ?_ ?_ ?_
      · intro t hl
        have hstat := hsta tid t h hl
        have htok : statusOk t := hok (tid, t) (lookupTask_mem _ _ _ hl)
        have herr := statusOk_error_none htok (by rw [hstat]; simp)
        simp [applyUpdate, statusOk, herr]
      · intro hx; rw [Function.update_same tid _ _] at hx; cases hx
      · intro hx; rw [Function.update_same tid _ _] at hx; cases hx
  | bgFail tid err h =>
      refine sysInv_update_preserved s tid TaskStatus.FAILED
        (some "Scoring failed due to an internal error.") none (some err)
        (Function.update s.bg tid BgPhase.done) ⟨hnd, hok, hsch, hsta⟩
        (fun i hi => Function.update_noteq hi _ _) ?_ ?_ ?_
      · intro t hl
        have hstat := hsta tid t h hl
        have htok : statusOk t := hok (tid, t) (lookupTask_mem _ _ _ hl)
        have hres := statusOk_result_none htok (by rw [hstat]; simp)
        simp [applyUpdate, statusOk, hres]
      · intro hx; rw [Function.update_same tid _ _] at hx; cases hx
      · intro hx; rw [Function.update_same tid _ _] at hx; cases hx
  | deleteTask tid =>
      refine ⟨nodup_keys_sublist (removeTask_sublist s.store tid) hnd, ?_, ?_, ?_⟩
      · intro p hp
        exact hok p ((removeTask_sublist s.store tid).subset hp)
      · intro i t hbi hli
        by_cases hit : i = tid
        · subst hit
          rw [lookupTask_removeTask_self s.store i hnd] at hli
          cases hli
        · rw [lookupTask_removeTask_ne s.store tid i hit] at hli
          exact hsch i t hbi hli
      · intro i t hbi hli
        by_cases hit : i = tid
        · subst hit
          rw [lookupTask_removeTask_self s.store i hnd] at hli
          cases hli
        · rw [lookupTask_removeTask_ne s.store tid i hit] at hli
          exact hsta i t hbi hli

theorem sysInv_reachable {s : Sys} (h : Reachable s) : SysInv s := by
  induction h with
  | init => exact sysInv_init
  | step _ hs ih => exact sysInv_step ih hs

/-! ### Batch slicing lemmas -/

theorem batches_nil : batches ([] : List α) = [] := by
  rw [batches]

theorem batches_cons (x : α) (xs : List α) :
    batches (x :: xs) =
      ((x :: xs).take BATCH_SIZE) :: batches ((x :: xs).drop BATCH_SIZE) := by
  rw [batches]

theorem batches_join (l : List α) : (batches l).flatten = l := by
  induction l using batches.induct with
  | case1 => simp [batches_nil]
  | case2 x xs ih =>
      rw [batches_cons]
      simp only [List.flatten_cons, ih]
      exact List.take_append_drop BATCH_SIZE (x :: xs)

theorem batches_length (l : List α) :
    (batches l).length = (l.length + (BATCH_SIZE - 1)) / BATCH_SIZE := by
  induction l using batches.induct with
  | case1 => simp [batches_nil, BATCH_SIZE]
  | case2 x xs ih =>
      rw [batches_cons]
      simp only [BATCH_SIZE] at ih ⊢
      simp only [List.length_cons, ih, List.length_drop]
      omega

theorem batches_ne_nil (l : List α) (h : l ≠ []) : batches l ≠ [] := by
  cases l with
  | nil => exact absurd rfl h
  | cons x xs => rw [batches_cons]; simp

theorem batches_mem_length (l : List α) (b : List α) (h : b ∈ batches l) :
    b ≠ [] ∧ b.length ≤ BATCH_SIZE := by
  induction l using batches.induct with
  | case1 => rw [batches_nil] at h; cases h
  | case2 x xs ih =>
      rw [batches_cons] at h
      rcases List.mem_cons.mp h with h1 | h1
      · subst h1
        constructor
        · simp [BATCH_SIZE]
        · exact List.length_take_le BATCH_SIZE (x :: xs)
      · exact ih h1

theorem batches_dropLast_length (l : List α) (b : List α)
    (h : b ∈ (batches l).dropLast) : b.length = BATCH_SIZE := by
  induction l using batches.induct with
  | case1 => rw [batches_nil] at h; cases h
  | case2 x xs ih =>
      rw [batches_cons] at h
      cases hdrop : (x :: xs).drop BATCH_SIZE with
      | nil =>
          rw [hdrop, batches_nil] at h
          simp at h
      | cons z zs =>
          have hne : batches ((x :: xs).drop BATCH_SIZE) ≠ [] := by
            rw [hdrop]; exact batches_ne_nil _ (by simp)
          rw [List.dropLast_cons_of_ne_nil hne] at h
          rcases List.mem_cons.mp h with h1 | h1
          · subst h1
            have hlen : BATCH_SIZE < (x :: xs).length := by
              by_contra hc
              push_neg at hc
              have : (x :: xs).drop BATCH_SIZE = [] := List.drop_eq_nil_of_le hc
              rw [hdrop] at this
              cases this
            rw [List.length_take]
            simp only [BATCH_SIZE] at hlen ⊢
            omega
          · exact ih h1

/-! ### Aggregation-loop lemmas -/

theorem scoreBatches_errors (oracle : List Candidate → Except PyExc (List α)) :
    ∀ bs : List (List Candidate),
      (scoreBatches oracle bs).2 = bs.filterMap (batchErrOf oracle) := by
  intro bs
  induction bs with
  | nil => simp [scoreBatches]
  | cons b bs ih =>
      cases ho : oracle b with
      | ok v => simp [scoreBatches, batchErrOf, ho, ih]
      | error e => simp [scoreBatches, batchErrOf, ho, ih]

theorem scoreBatches_scored (oracle : List Candidate → Except PyExc (List α)) :
    ∀ bs : List (List Candidate),
      (scoreBatches oracle bs).1 = (bs.map (batchOkOf oracle)).flatten := by
  intro bs
  induction bs with
  | nil => simp [scoreBatches]
  | cons b bs ih =>
      cases ho : oracle b with
      | ok v => simp [scoreBatches, batchOkOf, ho, ih]
      | error e => simp [scoreBatches, batchOkOf, ho, ih]

theorem scoreBatches_ids (oracle : List Candidate → Except PyExc (List ScoredCandidate))
    (bs : List (List Candidate))
    (h : ∀ b ∈ bs, ∃ out, oracle b = Except.ok out ∧
        out.map ScoredCandidate.id = b.map Candidate.id) :
    (scoreBatches oracle bs).1.map ScoredCandidate.id = bs.flatten.map Candidate.id ∧
      (scoreBatches oracle bs).2 = [] := by
  induction bs with
  | nil => simp [scoreBatches]
  | cons b bs ih =>
      obtain ⟨out, ho, hmap⟩ := h b (List.mem_cons_self b bs)
      obtain ⟨ih1, ih2⟩ := ih (fun b2 hb2 => h b2 (List.mem_cons_of_mem _ hb2))
      constructor
      · simp [scoreBatches, ho, ih1, hmap]
      · simp [scoreBatches, ho, ih2]

/-! ### Cache-scan lemmas -/

theorem scanCache_hit (jd : String) (now : Int) :
    ∀ store : Store,
      (∃ p ∈ store, p.2.job_description = some jd ∧
          p.2.status = TaskStatus.COMPLETED ∧
          ∃ c, p.2.created_at = some c ∧ now - cacheWindow ≤ c) →
      ∃ sid src, (scanCache jd now store).1 = some (sid, src) ∧
        (sid, src) ∈ store ∧ src.job_description = some jd ∧
        src.status = TaskStatus.COMPLETED ∧
        ∃ c, src.created_at = some c ∧ now - cacheWindow ≤ c := by
  intro store
  induction store with
  | nil => rintro ⟨p, hp, _⟩; cases hp
  | cons q rest ih =>
      rintro ⟨p, hp, hjd, hst, c, hc, hfr⟩
      obtain ⟨a, b⟩ := q
      by_cases hcond : b.job_description = some jd ∧ b.status = TaskStatus.COMPLETED
      · cases hca : b.created_at with
        | some cb =>
            by_cases hfrb : now - cacheWindow ≤ cb
            · refine ⟨a, b, ?_, List.mem_cons_self _ _, hcond.1, hcond.2, cb, hca, hfrb⟩
              simp [scanCache, hcond, hca, hfrb]
            · have hpr : p ∈ rest := by
                rcases List.mem_cons.mp hp with h1 | h1
                · exfalso
                  rw [h1] at hc
                  simp only at hc
                  rw [hca] at hc
                  cases hc
                  exact hfrb hfr
                · exact h1
              obtain ⟨sid, src, hscan, hmem, hrest⟩ :=
                ih ⟨p, hpr, hjd, hst, c, hc, hfr⟩
              refine ⟨sid, src, ?_, List.mem_cons_of_mem _ hmem, hrest⟩
              simp [scanCache, hcond, hca, hfrb, hscan]
        | none =>
            have hpr : p ∈ rest := by
              rcases List.mem_cons.mp hp with h1 | h1
              · exfalso
                rw [h1] at hc
                simp only at hc
                rw [hca] at hc
                cases hc
              · exact h1
            obtain ⟨sid, src, hscan, hmem, hrest⟩ :=
              ih ⟨p, hpr, hjd, hst, c, hc, hfr⟩
            refine ⟨sid, src, ?_, List.mem_cons_of_mem _ hmem, hrest⟩
            simp [scanCache, hcond, hca, hscan]
      · have hpr : p ∈ rest := by
          rcases List.mem_cons.mp hp with h1 | h1
          · exfalso
            rw [h1] at hjd hst
            exact hcond ⟨hjd, hst⟩
          · exact h1
        obtain ⟨sid, src, hscan, hmem, hrest⟩ :=
          ih ⟨p, hpr, hjd, hst, c, hc, hfr⟩
        refine ⟨sid, src, ?_, List.mem_cons_of_mem _ hmem, hrest⟩
        simp [scanCache, hcond, hscan]

/-! ### Error-string containment lemmas -/

theorem infix_pyStrRepr (x : String) : List.IsInfix x.data (pyStrRepr x).data := by
  refine ⟨"\x27".data, "\x27".data, ?_⟩
  simp [pyStrRepr, String.data_append]

theorem infix_pyListReprAux (x : String) :
    ∀ xs : List String, x ∈ xs → List.IsInfix x.data (pyListReprAux xs).data := by
  intro xs
  induction xs with
  | nil => intro h; cases h
  | cons y ys ih =>
      intro h
      rcases List.mem_cons.mp h with h1 | h1
      · subst h1
        cases ys with
        | nil => exact infix_pyStrRepr x
        | cons z zs =>
            refine (infix_pyStrRepr x).trans ?_
            refine ⟨[], (", " ++ pyListReprAux (z :: zs)).data, ?_⟩
            simp [pyListReprAux, String.data_append]
      · cases ys with
        | nil => cases h1
        | cons z zs =>
            refine (ih h1).trans ?_
            refine ⟨(pyStrRepr y ++ ", ").data, [], ?_⟩
            simp [pyListReprAux, String.data_append]

theorem infix_pyListRepr (x : String) (xs : List String) (h : x ∈ xs) :
    List.IsInfix x.data (pyListRepr xs).data := by
  refine (infix_pyListReprAux x xs h).trans ?_
  refine ⟨"[".data, "]".data, ?_⟩
  simp [pyListRepr, String.data_append]

theorem id_infix_batchErrorString (batch : List Candidate) (e : PyExc) (c : Candidate)
    (hc : c ∈ batch) : List.IsInfix c.id.data (batchErrorString batch e).data := by
  have h1 : c.id ∈ batch.map Candidate.id := List.mem_map_of_mem _ hc
  refine (infix_pyListRepr _ _ h1).trans ?_
  refine ⟨"Failed to score batch (IDs: ".data,
    ("): " ++ e.pyTypeName ++ ": " ++ e.pyStr).data, ?_⟩
  simp [batchErrorString, String.data_append]

theorem typeName_infix_batchErrorString (batch : List Candidate) (e : PyExc) :
    List.IsInfix e.pyTypeName.data (batchErrorString batch e).data := by
  refine ⟨("Failed to score batch (IDs: " ++ pyListRepr (batch.map Candidate.id)
      ++ "): ").data, (": " ++ e.pyStr).data, ?_⟩
  simp [batchErrorString, String.data_append]

/-! ### Claim theorems -/

/-- The `await` at `llm_interaction.py` line 168 turns every outcome of an
attempt into an exception: the invoker either raises, or returns a
non-awaitable value that the `await` rejects with `TypeError` — an attempt
never binds a value, so the str-decode branch of the source is dead code. -/
theorem attemptResult_never_ok (env : BatchEnv)
    (call : Nat → Except PyExc JsonVal) (v : JsonVal) :
    (attemptResult env call).1 ≠ Except.ok v := by
  unfold attemptResult awaited_invoke
  cases h : (invoke_llm_with_retry call).1 <;> simp [h]

/-- C1: the claim states that a batch whose strict attempt-1 output fails to
parse but whose lenient attempt-2 output is valid JSON yields the attempt-2
parsed content with the invoker called exactly twice.  The composed code
refutes it at that very input: the decorator retries the parse failure
`MAX_RETRIES` times and raises `RetryError`, which the two-attempt logic's
`except OutputParserException` does not catch, so the batch fails after one
invoker call (three underlying chain calls) and the lenient attempt never
runs — the attempt-2 parsed content (here the empty array) is never returned.
The second conjunct shows the other half of the breakage: even a strict chain
that succeeds at once fails with `TypeError`, because line 168 awaits the
synchronous invoker return. -/
theorem claim_C1_strict_parse_failure_skips_lenient_attempt :
    score_candidates_batch envStrictParseFails "openai" =
      { result := Except.error (PyExc.retryError
          (PyExc.outputParserException "Invalid json output")),
        invokerCalls := 1, chainCalls := 3 } ∧
    score_candidates_batch envStrictOk "openai" =
      { result := Except.error (PyExc.other "TypeError"
          "object can not be used in await expression"),
        invokerCalls := 1, chainCalls := 1 } :=
  ⟨rfl, rfl⟩

/-- C2: the claim states that the transport-retry layer never retries parse
failures and propagates `OutputParserException` unchanged.  The code refutes
it: `retry_decorator` is built with `retry_if_exception_type((Exception))`,
which matches `OutputParserException`, so a chain whose output fails to parse
is re-invoked until the attempt ceiling and the decorator then raises
`RetryError` wrapping the parse failure — three underlying calls, and not the
unchanged exception. -/
theorem claim_C2_retry_decorator_retries_parse_failures :
    retry_condition (PyExc.outputParserException "Invalid json output") = true ∧
    invoke_llm_with_retry
        (fun _ => Except.error (PyExc.outputParserException "Invalid json output")) =
      (Except.error (PyExc.retryError
        (PyExc.outputParserException "Invalid json output")), 3) :=
  ⟨rfl, rfl⟩

/-- C3: the claim states that `score_candidates` invokes a supplied progress
callback before each batch.  The code refutes it: `score_candidates`
(`llm_interaction.py` line 213) accepts only `job_description`, `candidates`
and `model_provider`, so the call in `run_scoring_task` (`api_server.py`
line 82), which passes `progress_callback=`, fails Python keyword binding
with a `TypeError` — the callback is never invoked. -/
theorem claim_C3_progress_callback_not_accepted :
    kwargsBind score_candidates_param_names run_scoring_task_call_kwargs = false := by
  decide

/-- C4 counterexample: the claim requires that asserting a backward transition
(COMPLETED → PROCESSING) must fail, but `update_task_status` performs no
transition check: applied to a store whose task `tA` is COMPLETED, the update
to PROCESSING succeeds and the stored status becomes PROCESSING. -/
theorem claim_C4_counterexample_backward_update_succeeds :
    (lookupTask c4store "tA").map TaskInfo.status = some TaskStatus.COMPLETED ∧
    (lookupTask (update_task_status c4store "tA" TaskStatus.PROCESSING
        (some "restarted") none none) "tA").map TaskInfo.status =
      some TaskStatus.PROCESSING := by
  constructor <;> rfl

/-- C4 (amended): for every task record reachable through the system's
operations, a single operation only ever leaves the status unchanged, moves
PENDING to PROCESSING, or moves PROCESSING to COMPLETED or FAILED — in
particular no reachable operation moves a task out of a terminal state.  (The
original claim's second half — that an out-of-order update must fail — is
refuted by the counterexample: `update_task_status` checks nothing.) -/
theorem claim_C4_amended_reachable_transitions_forward (s s1 : Sys)
    (hr : Reachable s) (hstep : Step s s1) (i : String) (t u : TaskInfo)
    (h1 : lookupTask s.store i = some t) (h2 : lookupTask s1.store i = some u) :
    u.status = t.status ∨
    (t.status = TaskStatus.PENDING ∧ u.status = TaskStatus.PROCESSING) ∨
    (t.status = TaskStatus.PROCESSING ∧
      (u.status = TaskStatus.COMPLETED ∨ u.status = TaskStatus.FAILED)) := by
  obtain ⟨hnd, hok, hsch, hsta⟩ := sysInv_reachable hr
  cases hstep with
  | submit jd now newId hfresh hbg =>
      have hlook1 : ∀ j tt,
          lookupTask ((scanCache jd now s.store).2.foldl removeTask s.store) j = some tt →
            lookupTask s.store j = some tt := by
        intro j tt hlt
        rcases lookupTask_foldl_removeTask (scanCache jd now s.store).2 s.store j hnd
          with hx | hx
        · rw [hx] at hlt; cases hlt
        · rw [hx] at hlt; exact hlt
      have h2a : lookupTask (initiate_score_endpoint s.store jd now newId).1 i = some u := h2
      by_cases hin : i = newId
      · subst hin
        rw [hfresh] at h1
        cases h1
      · rcases initiate_shape s.store jd now newId with ⟨src, r, _, _, heq⟩ | heq <;>
          · simp only [heq] at h2a
            rw [lookupTask_setTask_ne _ newId i _ hin] at h2a
            have h2b := hlook1 i u h2a
            rw [h1] at h2b
            injection h2b with hh
            rw [hh]
            exact Or.inl rfl
  | bgStart tid h =>
      have h2a : lookupTask (update_task_status s.store tid TaskStatus.PROCESSING
          (some "Scoring process initiated.") none none) i = some u := h2
      by_cases hit : i = tid
      · subst hit
        have ht := hsch i t h h1
        rw [lookupTask_update_self s.store i _ _ _ _ t h1] at h2a
        injection h2a with hh
        exact Or.inr (Or.inl ⟨ht, by rw [← hh]; rfl⟩)
      · rw [lookupTask_update_ne s.store tid _ _ _ _ i hit] at h2a
        rw [h1] at h2a
        injection h2a with hh
        rw [hh]
        exact Or.inl rfl
  | bgProgress tid msg h =>
      have h2a : lookupTask (update_task_status s.store tid TaskStatus.PROCESSING
          (some msg) none none) i = some u := h2
      by_cases hit : i = tid
      · subst hit
        have ht := hsta i t h h1
        rw [lookupTask_update_self s.store i _ _ _ _ t h1] at h2a
        injection h2a with hh
        refine Or.inl ?_
        rw [← hh, ht]
        rfl
      · rw [lookupTask_update_ne s.store tid _ _ _ _ i hit] at h2a
        rw [h1] at h2a
        injection h2a with hh
        rw [hh]
        exact Or.inl rfl
  | bgComplete tid res msg h =>
      have h2a : lookupTask (update_task_status s.store tid TaskStatus.COMPLETED
          (some msg) (some res) none) i = some u := h2
      by_cases hit : i = tid
      · subst hit
        have ht := hsta i t h h1
        rw [lookupTask_update_self s.store i _ _ _ _ t h1] at h2a
        injection h2a with hh
        exact Or.inr (Or.inr ⟨ht, Or.inl (by rw [← hh]; rfl)⟩)
      · rw [lookupTask_update_ne s.store tid _ _ _ _ i hit] at h2a
        rw [h1] at h2a
        injection h2a with hh
        rw [hh]
        exact Or.inl rfl
  | bgFail tid err h =>
      have h2a : lookupTask (update_task_status s.store tid TaskStatus.FAILED
          (some "Scoring failed due to an internal error.") none (some err)) i =
            some u := h2
      by_cases hit : i = tid
      · subst hit
        have ht := hsta i t h h1
        rw [lookupTask_update_self s.store i _ _ _ _ t h1] at h2a
        injection h2a with hh
        exact Or.inr (Or.inr ⟨ht, Or.inr (by rw [← hh]; rfl)⟩)
      · rw [lookupTask_update_ne s.store tid _ _ _ _ i hit] at h2a
        rw [h1] at h2a
        injection h2a with hh
        rw [hh]
        exact Or.inl rfl
  | deleteTask tid =>
      have h2a : lookupTask (removeTask s.store tid) i = some u := h2
      by_cases hit : i = tid
      · subst hit
        rw [lookupTask_removeTask_self s.store i hnd] at h2a
        cases h2a
      · rw [lookupTask_removeTask_ne s.store tid i hit] at h2a
        rw [h1] at h2a
        injection h2a with hh
        rw [hh]
        exact Or.inl rfl

/-- Witness for the amended C4: in the reachable run submit → start, the task
`t1` moves PENDING → PROCESSING, one of the allowed transitions. -/
theorem claim_C4_witness :
    (applyUpdate (pendingTask "t1" "jd" 0) TaskStatus.PROCESSING
        (some "Scoring process initiated.") none none).status =
      (pendingTask "t1" "jd" 0).status ∨
    ((pendingTask "t1" "jd" 0).status = TaskStatus.PENDING ∧
      (applyUpdate (pendingTask "t1" "jd" 0) TaskStatus.PROCESSING
        (some "Scoring process initiated.") none none).status =
        TaskStatus.PROCESSING) ∨
    ((pendingTask "t1" "jd" 0).status = TaskStatus.PROCESSING ∧
      ((applyUpdate (pendingTask "t1" "jd" 0) TaskStatus.PROCESSING
          (some "Scoring process initiated.") none none).status =
          TaskStatus.COMPLETED ∨
        (applyUpdate (pendingTask "t1" "jd" 0) TaskStatus.PROCESSING
          (some "Scoring process initiated.") none none).status =
          TaskStatus.FAILED)) :=
  claim_C4_amended_reachable_transitions_forward demoSys1 demoSys2
    (Reachable.step Reachable.init (Step.submit sysInit "jd" 0 "t1" rfl rfl))
    (Step.bgStart demoSys1 "t1" (by decide)) "t1"
    (pendingTask "t1" "jd" 0)
    (applyUpdate (pendingTask "t1" "jd" 0) TaskStatus.PROCESSING
      (some "Scoring process initiated.") none none)
    (by decide) (by decide)

/-- C5: if the submission's job description is byte-identical to that of an
existing COMPLETED task created within the 10-minute window which carries a
result (and the store, as the system writes it, gives every COMPLETED task a
result), then `POST /score` creates the fresh `task_id` as an immediately
COMPLETED record copying the cached result, with a message naming the source
task, and schedules no background scoring work. -/
theorem claim_C5_cache_hit_returns_completed_copy (store : Store) (jd : String)
    (now : Int) (newId : String)
    (hinv : ∀ p ∈ store, p.2.status = TaskStatus.COMPLETED → p.2.result ≠ none)
    (hexists : ∃ p ∈ store, p.2.job_description = some jd ∧
        p.2.status = TaskStatus.COMPLETED ∧
        ∃ c, p.2.created_at = some c ∧ now - cacheWindow ≤ c) :
    (initiate_score_endpoint store jd now newId).2 = false ∧
    ∃ sid src r, (sid, src) ∈ store ∧ src.job_description = some jd ∧
      src.status = TaskStatus.COMPLETED ∧ src.result = some r ∧
      (∃ c, src.created_at = some c ∧ now - cacheWindow ≤ c) ∧
      lookupTask (initiate_score_endpoint store jd now newId).1 newId =
        some (cachedHitTask newId jd now src.task_id r) := by
  obtain ⟨sid, src, hscan, hmem, hjd, hst, hc⟩ := scanCache_hit jd now store hexists
  have hres := hinv (sid, src) hmem hst
  obtain ⟨r, hr⟩ := Option.ne_none_iff_exists'.mp hres
  have hr2 : src.result = some r := hr
  have heq : initiate_score_endpoint store jd now newId =
      (setTask ((scanCache jd now store).2.foldl removeTask store) newId
        (cachedHitTask newId jd now src.task_id r), false) := by
    simp [initiate_score_endpoint, hscan, hr2]
  refine ⟨by rw [heq], sid, src, r, hmem, hjd, hst, hr, hc, ?_⟩
  rw [heq]
  exact lookupTask_setTask_self _ newId _

/-- Witness for C5: a store holding one fresh COMPLETED task for the same job
description yields an immediately COMPLETED copy and no background work. -/
theorem claim_C5_witness :
    (initiate_score_endpoint demoStore5 "Backend Engineer" 200 "t9").2 = false ∧
    ∃ sid src r, (sid, src) ∈ demoStore5 ∧
      src.job_description = some "Backend Engineer" ∧
      src.status = TaskStatus.COMPLETED ∧ src.result = some r ∧
      (∃ c, src.created_at = some c ∧ (200 : Int) - cacheWindow ≤ c) ∧
      lookupTask (initiate_score_endpoint demoStore5 "Backend Engineer" 200 "t9").1 "t9" =
        some (cachedHitTask "t9" "Backend Engineer" 200 src.task_id r) :=
  claim_C5_cache_hit_returns_completed_copy demoStore5 "Backend Engineer" 200 "t9"
    (by decide) ⟨("src1", demoSrcTask), by decide, rfl, rfl, 100, rfl, by decide⟩

/-- C6: `score_candidates` processes batches sequentially and isolates
per-batch failures: the error list holds exactly one formatted string per
failing batch in batch order, the scored output is the concatenation of the
successful batches' outputs only (a failing batch contributes nothing), and a
failing batch's error string contains each of its candidate ids and the
failure type name. -/
theorem claim_C6_batch_failure_isolation {α : Type}
    (oracle : List Candidate → Except PyExc (List α)) (cs : List Candidate)
    (b : List Candidate) (e : PyExc) (c : Candidate)
    (_hb : b ∈ batches cs) (_he : oracle b = Except.error e) (hc : c ∈ b) :
    (score_candidates oracle cs).2 = (batches cs).filterMap (batchErrOf oracle) ∧
    (score_candidates oracle cs).1 = ((batches cs).map (batchOkOf oracle)).flatten ∧
    List.IsInfix c.id.data (batchErrorString b e).data ∧
    List.IsInfix e.pyTypeName.data (batchErrorString b e).data :=
  ⟨scoreBatches_errors oracle (batches cs), scoreBatches_scored oracle (batches cs),
    id_infix_batchErrorString b e c hc, typeName_infix_batchErrorString b e⟩

/-- Witness for C6: with twelve candidates, the first (full) batch fails and
the second succeeds; the error list holds exactly the first batch's formatted
string, the scored output is the second batch's, and the error string contains
the id `c1` and the type name `Exception`. -/
theorem claim_C6_witness :
    (score_candidates demoFailOracle demoCands).2 =
      (batches demoCands).filterMap (batchErrOf demoFailOracle) ∧
    (score_candidates demoFailOracle demoCands).1 =
      ((batches demoCands).map (batchOkOf demoFailOracle)).flatten ∧
    List.IsInfix (mkCand "c1").id.data
      (batchErrorString (demoCands.take BATCH_SIZE) demoExc).data ∧
    List.IsInfix demoExc.pyTypeName.data
      (batchErrorString (demoCands.take BATCH_SIZE) demoExc).data :=
 by
  refine claim_C6_batch_failure_isolation demoFailOracle demoCands
    (demoCands.take BATCH_SIZE) demoExc (mkCand "c1") ?_ ?_ ?_
  · simp only [demoCands]
    rw [batches_cons]
    exact List.mem_cons_self _ _
  · rfl
  · decide

/-- C7: for any candidate list of size N, `score_candidates` partitions it
into exactly ceil(N/10) consecutive groups in input order — every group
before the last has exactly `BATCH_SIZE` elements and every group is nonempty
with at most `BATCH_SIZE` elements, and their concatenation is the input —
and when every batch succeeds (producing one scored record per candidate, in
batch order) the concatenated scored output is in input order and the error
list is empty.  (In `Nat` arithmetic ceil(N/10) is `(N + 9) / 10`.) -/
theorem claim_C7_batch_partition_and_order (cs : List Candidate)
    (oracle : List Candidate → Except PyExc (List ScoredCandidate))
    (b : List Candidate)
    (hok : ∀ bb ∈ batches cs, ∃ out, oracle bb = Except.ok out ∧
        out.map ScoredCandidate.id = bb.map Candidate.id)
    (hb : b ∈ batches cs) :
    (batches cs).length = (cs.length + (BATCH_SIZE - 1)) / BATCH_SIZE ∧
    (batches cs).flatten = cs ∧
    (b ∈ (batches cs).dropLast → b.length = BATCH_SIZE) ∧
    (b ≠ [] ∧ b.length ≤ BATCH_SIZE) ∧
    (score_candidates oracle cs).1.map ScoredCandidate.id = cs.map Candidate.id ∧
    (score_candidates oracle cs).2 = [] := by
  obtain ⟨hids, herr⟩ := scoreBatches_ids oracle (batches cs) hok
  rw [batches_join cs] at hids
  exact ⟨batches_length cs, batches_join cs,
    fun hbl => batches_dropLast_length cs b hbl,
    batches_mem_length cs b hb, hids, herr⟩

/-- Witness for C7 at twelve candidates scored in order by every batch: two
batches, the first of full size, output in input order, no errors. -/
theorem claim_C7_witness :
    (batches demoCands).length = (demoCands.length + (BATCH_SIZE - 1)) / BATCH_SIZE ∧
    (batches demoCands).flatten = demoCands ∧
    (demoCands.take BATCH_SIZE ∈ (batches demoCands).dropLast →
      (demoCands.take BATCH_SIZE).length = BATCH_SIZE) ∧
    (demoCands.take BATCH_SIZE ≠ [] ∧
      (demoCands.take BATCH_SIZE).length ≤ BATCH_SIZE) ∧
    (score_candidates demoOkOracle demoCands).1.map ScoredCandidate.id =
      demoCands.map Candidate.id ∧
    (score_candidates demoOkOracle demoCands).2 = [] := by
  refine claim_C7_batch_partition_and_order demoCands demoOkOracle
    (demoCands.take BATCH_SIZE) ?_ ?_
  · intro bb _
    exact ⟨bb.map demoScoreFn, rfl, by rw [List.map_map]; rfl⟩
  · simp only [demoCands]
    rw [batches_cons]
    exact List.mem_cons_self _ _

/-- C8: every task record reachable through the system's operations has at
most one of result and error_detail populated, and only when the status
matches: a result only with status COMPLETED, an error_detail only with
status FAILED. -/
theorem claim_C8_result_error_status_invariant (s : Sys) (hr : Reachable s)
    (i : String) (t : TaskInfo) (h : lookupTask s.store i = some t) :
    ¬(t.result ≠ none ∧ t.error_detail ≠ none) ∧
    (t.result ≠ none → t.status = TaskStatus.COMPLETED) ∧
    (t.error_detail ≠ none → t.status = TaskStatus.FAILED) := by
  obtain ⟨_, hok, _, _⟩ := sysInv_reachable hr
  obtain ⟨h1, h2⟩ := hok (i, t) (lookupTask_mem s.store i t h)
  refine ⟨?_, h1, h2⟩
  rintro ⟨hx, hy⟩
  have hcc := h1 hx
  have hff := h2 hy
  rw [hcc] at hff
  cases hff

/-- Witness for C8 at the reachable state submit → start → complete: the
completed record for `t1` carries a result, no error_detail, and status
COMPLETED. -/
theorem claim_C8_witness :
    ¬((applyUpdate (applyUpdate (pendingTask "t1" "jd" 0) TaskStatus.PROCESSING
          (some "Scoring process initiated.") none none) TaskStatus.COMPLETED
          (some "Scoring complete.") (some demoResult) none).result ≠ none ∧
      (applyUpdate (applyUpdate (pendingTask "t1" "jd" 0) TaskStatus.PROCESSING
          (some "Scoring process initiated.") none none) TaskStatus.COMPLETED
          (some "Scoring complete.") (some demoResult) none).error_detail ≠ none) ∧
    ((applyUpdate (applyUpdate (pendingTask "t1" "jd" 0) TaskStatus.PROCESSING
        (some "Scoring process initiated.") none none) TaskStatus.COMPLETED
        (some "Scoring complete.") (some demoResult) none).result ≠ none →
      (applyUpdate (applyUpdate (pendingTask "t1" "jd" 0) TaskStatus.PROCESSING
        (some "Scoring process initiated.") none none) TaskStatus.COMPLETED
        (some "Scoring complete.") (some demoResult) none).status =
        TaskStatus.COMPLETED) ∧
    ((applyUpdate (applyUpdate (pendingTask "t1" "jd" 0) TaskStatus.PROCESSING
        (some "Scoring process initiated.") none none) TaskStatus.COMPLETED
        (some "Scoring complete.") (some demoResult) none).error_detail ≠ none →
      (applyUpdate (applyUpdate (pendingTask "t1" "jd" 0) TaskStatus.PROCESSING
        (some "Scoring process initiated.") none none) TaskStatus.COMPLETED
        (some "Scoring complete.") (some demoResult) none).status =
        TaskStatus.FAILED) :=
  claim_C8_result_error_status_invariant demoSys3
    (Reachable.step (Reachable.step (Reachable.step Reachable.init
      (Step.submit sysInit "jd" 0 "t1" rfl rfl))
      (Step.bgStart demoSys1 "t1" (by decide)))
      (Step.bgComplete demoSys2 "t1" demoResult "Scoring complete." (by decide)))
    "t1"
    (applyUpdate (applyUpdate (pendingTask "t1" "jd" 0) TaskStatus.PROCESSING
      (some "Scoring process initiated.") none none) TaskStatus.COMPLETED
      (some "Scoring complete.") (some demoResult) none)
    (by decide)

/-- C9: `update_task_status` mutates only an existing record — with an absent
task id it is a no-op that never creates a record — and a provided result or
error_detail is set, while an omitted one is retained rather than cleared. -/
theorem claim_C9_update_absent_noop_and_retention (store : Store) (tid : String)
    (st : TaskStatus) (msg : Option String) (res : Option ScoringOutput)
    (err : Option String) (t : TaskInfo) :
    (lookupTask store tid = none →
      update_task_status store tid st msg res err = store) ∧
    (lookupTask store tid = some t →
      lookupTask (update_task_status store tid st msg res err) tid =
          some (applyUpdate t st msg res err) ∧
        (res ≠ none → (applyUpdate t st msg res err).result = res) ∧
        (res = none → (applyUpdate t st msg res err).result = t.result) ∧
        (err ≠ none → (applyUpdate t st msg res err).error_detail = err) ∧
        (err = none → (applyUpdate t st msg res err).error_detail = t.error_detail)) := by
  refine ⟨update_task_status_absent store tid st msg res err, fun h =>
    ⟨lookupTask_update_self store tid st msg res err t h, ?_, ?_, ?_, ?_⟩⟩
  · intro hr
    cases res with
    | none => exact absurd rfl hr
    | some r => simp [applyUpdate]
  · intro hr; subst hr; simp [applyUpdate]
  · intro hx
    cases err with
    | none => exact absurd rfl hx
    | some x => simp [applyUpdate]
  · intro hx; subst hx; simp [applyUpdate]

/-- Witness for C9 at a concrete store: updating the existing task `src1`
with omitted result and error_detail retains both. -/
theorem claim_C9_witness :
    (lookupTask demoStore5 "src1" = none →
      update_task_status demoStore5 "src1" TaskStatus.PROCESSING (some "progress")
        none none = demoStore5) ∧
    (lookupTask demoStore5 "src1" = some demoSrcTask →
      lookupTask (update_task_status demoStore5 "src1" TaskStatus.PROCESSING
          (some "progress") none none) "src1" =
          some (applyUpdate demoSrcTask TaskStatus.PROCESSING (some "progress")
            none none) ∧
        ((none : Option ScoringOutput) ≠ none →
          (applyUpdate demoSrcTask TaskStatus.PROCESSING (some "progress")
            none none).result = none) ∧
        ((none : Option ScoringOutput) = none →
          (applyUpdate demoSrcTask TaskStatus.PROCESSING (some "progress")
            none none).result = demoSrcTask.result) ∧
        ((none : Option String) ≠ none →
          (applyUpdate demoSrcTask TaskStatus.PROCESSING (some "progress")
            none none).error_detail = none) ∧
        ((none : Option String) = none →
          (applyUpdate demoSrcTask TaskStatus.PROCESSING (some "progress")
            none none).error_detail = demoSrcTask.error_detail)) :=
  claim_C9_update_absent_noop_and_retention demoStore5 "src1" TaskStatus.PROCESSING
    (some "progress") none none demoSrcTask

/-- C10: `update_task_status` changes only status, message, result and
error_detail — the `task_id`, `job_description` and `created_at` fields of
every record are left unchanged by every status update. -/
theorem claim_C10_update_frame (store : Store) (tid : String) (st : TaskStatus)
    (msg : Option String) (res : Option ScoringOutput) (err : Option String)
    (i : String) (t u : TaskInfo)
    (h1 : lookupTask store i = some t)
    (h2 : lookupTask (update_task_status store tid st msg res err) i = some u) :
    u.task_id = t.task_id ∧ u.job_description = t.job_description ∧
    u.created_at = t.created_at := by
  by_cases hit : i = tid
  · subst hit
    rw [lookupTask_update_self store i st msg res err t h1] at h2
    injection h2 with hh
    rw [← hh]
    exact ⟨rfl, rfl, rfl⟩
  · rw [lookupTask_update_ne store tid st msg res err i hit] at h2
    rw [h1] at h2
    injection h2 with hh
    rw [← hh]
    exact ⟨rfl, rfl, rfl⟩

/-- Witness for C10 at a concrete store: failing the task `src1` leaves its
identity, job description and creation time unchanged. -/
theorem claim_C10_witness :
    (applyUpdate demoSrcTask TaskStatus.FAILED none none (some "boom")).task_id =
      demoSrcTask.task_id ∧
    (applyUpdate demoSrcTask TaskStatus.FAILED none none
        (some "boom")).job_description = demoSrcTask.job_description ∧
    (applyUpdate demoSrcTask TaskStatus.FAILED none none
        (some "boom")).created_at = demoSrcTask.created_at :=
  claim_C10_update_frame demoStore5 "src1" TaskStatus.FAILED none none
    (some "boom") "src1" demoSrcTask
    (applyUpdate demoSrcTask TaskStatus.FAILED none none (some "boom"))
    (by decide) (by decide)
